import Mathlib

/-!
Verification development for the AI Meal Planner repository.

The backend core (`backend/main.py`, `backend/database.py`) is described in the
repository documentation but its source is not present; the definitions below
that embed it are marked `Modelled from the spec:` and follow the specification
text. The frontend TypeScript (HealthForm.tsx, GroceryList.tsx, the zustand
store) is embedded directly from its source.
-/

namespace MealPlanner

/-- A structural JSON value, the shape of data exchanged with the model and
persisted by the session store. -/
inductive Json where
  | null : Json
  | str : String → Json
  | arr : List Json → Json
  | obj : List (String × Json) → Json

/-- A grocery item as defined across the frontend (GroceryList.tsx interface
GroceryItem): item, quantity, category strings; link and the nutrition fields
optional (null vs present). -/
structure GroceryItem where
  item : String
  quantity : String
  category : String
  link : Option String
  protein : Option String
  carbs : Option String
  fats : Option String
  cals : Option String
deriving DecidableEq, Repr

/-- Encode an optional string field: absence becomes JSON null, presence a
JSON string (so `none` and `some ""` stay distinguishable). -/
def optJson : Option String → Json
  | none => .null
  | some s => .str s

/-- Decode an optional string field back from JSON. -/
def jsonOpt : Json → Option (Option String)
  | .null => some none
  | .str s => some (some s)
  | _ => none

/-- Decode a required string field. -/
def strOfJson : Json → Option String
  | .str s => some s
  | _ => none

/-- Look up a field of a JSON object. -/
def getField (j : Json) (k : String) : Option Json :=
  match j with
  | .obj fields => fields.lookup k
  | _ => none

/-- Serialize one grocery item to a JSON object. -/
def itemToJson (it : GroceryItem) : Json :=
  .obj [("item", .str it.item), ("quantity", .str it.quantity),
        ("category", .str it.category), ("link", optJson it.link),
        ("protein", optJson it.protein), ("carbs", optJson it.carbs),
        ("fats", optJson it.fats), ("cals", optJson it.cals)]

/-- Parse one grocery item from a JSON object. -/
def itemOfJson (j : Json) : Option GroceryItem := do
  let item ← (getField j "item").bind strOfJson
  let quantity ← (getField j "quantity").bind strOfJson
  let category ← (getField j "category").bind strOfJson
  let link ← (getField j "link").bind jsonOpt
  let protein ← (getField j "protein").bind jsonOpt
  let carbs ← (getField j "carbs").bind jsonOpt
  let fats ← (getField j "fats").bind jsonOpt
  let cals ← (getField j "cals").bind jsonOpt
  pure ⟨item, quantity, category, link, protein, carbs, fats, cals⟩

/-- Map a fallible function over a list, failing if any element fails. -/
def mapOption (f : α → Option β) : List α → Option (List β)
  | [] => some []
  | a :: l =>
    match f a, mapOption f l with
    | some b, some bs => some (b :: bs)
    | _, _ => none

/-- Serialize a grocery list to a JSON array. -/
def listToJson (l : List GroceryItem) : Json := .arr (l.map itemToJson)

/-- Parse a grocery list from a JSON array. -/
def listOfJson : Json → Option (List GroceryItem)
  | .arr items => mapOption itemOfJson items
  | _ => none

/-- The key-value session store: rows of (session_id, serialized list_data),
in insertion order. -/
abbrev Db := List (String × Json)

/-- Error raised by session-store reads and deletes that miss. -/
inductive StoreError where
  | notFound
deriving DecidableEq, Repr

/-- Modelled from the spec: `backend/database.py` `insert_grocery_list` is not
under src/. Stores the grocery list serialized (JSON string in the real
SQLite row) under the session id, appending a new row. -/
def insert_grocery_list (db : Db) (sid : String) (gl : List GroceryItem) : Db :=
  db ++ [(sid, listToJson gl)]

/-- Modelled from the spec: `backend/database.py` `get_grocery_list` is not
under src/. Retrieves the row for the session id and parses the stored JSON
back; a missing row is NotFound. -/
def get_grocery_list (db : Db) (sid : String) : Except StoreError (List GroceryItem) :=
  match db.lookup sid with
  | some j =>
    match listOfJson j with
    | some gl => .ok gl
    | none => .error .notFound
  | none => .error .notFound

/-- Modelled from the spec: `backend/database.py` `delete_grocery_list` is not
under src/. Deletes the row for the session id; a delete that matches no row
reports NotFound rather than silently succeeding. -/
def delete_grocery_list (db : Db) (sid : String) : Except StoreError Db :=
  if (db.lookup sid).isSome then
    .ok (db.filter (fun kv => !(kv.1 == sid)))
  else .error .notFound

/-- Result of the bounded-retry validation loop: either a validated value, or
AIResponseInvalid carrying the last raw model output for diagnostics (none
when no attempt was ever made). -/
inductive VResult (ρ α : Type) where
  | ok (v : α)
  | aiResponseInvalid (lastRaw : Option ρ)
deriving DecidableEq, Repr

/-- Modelled from the spec: `backend/main.py` `safe_json_parse` is not under
src/. One pass of the bounded retry loop: `invoke i` is the raw model output
of attempt `i` (the same prompt every time), `parse` is the strip-wrappers,
parse and schema-validate stage. Returns the loop result together with the
number of times the model was invoked. -/
def runAttempts (invoke : Nat → ρ) (parse : ρ → Option α) :
    Option ρ → Nat → Nat → VResult ρ α × Nat
  | lastRaw, _, 0 => (.aiResponseInvalid lastRaw, 0)
  | _, i, budget + 1 =>
    let raw := invoke i
    match parse raw with
    | some v => (.ok v, 1)
    | none =>
      let rest := runAttempts invoke parse (some raw) (i + 1) budget
      (rest.1, rest.2 + 1)

/-- Modelled from the spec: `backend/main.py` `safe_json_parse` is not under
src/. Retry budget of 3 attempts total including the first. -/
def safe_json_parse (invoke : Nat → ρ) (parse : ρ → Option α) : VResult ρ α × Nat :=
  runAttempts invoke parse none 0 3

/-- The five activity levels of the HealthProfile enum. -/
inductive ActivityLevel where
  | sedentary
  | lightly_active
  | moderately_active
  | very_active
  | extra_active
deriving DecidableEq, Repr

/-- Parse an activity-level string; strings outside the enum yield none. -/
def parseActivity (a : String) : Option ActivityLevel :=
  if a = "sedentary" then some .sedentary
  else if a = "lightly_active" then some .lightly_active
  else if a = "moderately_active" then some .moderately_active
  else if a = "very_active" then some .very_active
  else if a = "extra_active" then some .extra_active
  else none

/-- Fixed activity-level coefficient lookup (sedentary = 1.2 up to
extra_active = 1.9). -/
def activityMultiplier : ActivityLevel → ℚ
  | .sedentary => 12 / 10
  | .lightly_active => 1375 / 1000
  | .moderately_active => 155 / 100
  | .very_active => 1725 / 1000
  | .extra_active => 19 / 10

/-- Kilograms per pound. -/
def kgPerLb : ℚ := 45359237 / 100000000

/-- Centimeters per inch. -/
def cmPerIn : ℚ := 254 / 100

/-- Height in centimeters from feet and inches. -/
def heightCm (hF hI : ℚ) : ℚ := (hF * 12 + hI) * cmPerIn

/-- Weight in kilograms from pounds. -/
def weightKg (w : ℚ) : ℚ := w * kgPerLb

/-- Modelled from the spec: `backend/main.py` `calculate_calories_needed` is
not under src/. Mifflin–St Jeor basal metabolic rate, with the single fixed
policy constant +5 standing in for the missing age/sex terms. -/
def bmr (hF hI w : ℚ) : ℚ := 10 * weightKg w + (625 / 100) * heightCm hF hI + 5

/-- Daily calorie estimate for a parsed activity level: basal metabolic rate
times the activity coefficient. -/
def estimateCore (hF hI w : ℚ) (a : ActivityLevel) : ℚ :=
  bmr hF hI w * activityMultiplier a

/-- Error raised by the calorie estimator on bad input. -/
inductive CalorieError where
  | invalidInput
deriving DecidableEq, Repr

/-- Modelled from the spec: `backend/main.py` `calculate_calories_needed` is
not under src/. Rejects non-positive weight and out-of-enum activity levels
with InvalidInput, otherwise returns the pure estimate. -/
def calculate_calories_needed (hF hI w : ℚ) (act : String) : Except CalorieError ℚ :=
  if w ≤ 0 then .error .invalidInput
  else
    match parseActivity act with
    | some lv => .ok (estimateCore hF hI w lv)
    | none => .error .invalidInput

/-- A single day of a meal plan (backend DayMeal / frontend meal_plan entry). -/
structure DayMeal where
  day : String
  breakfast : String
  lunch : String
  dinner : String
  snacks : String
deriving DecidableEq, Repr

/-- Decode a required non-empty string field of a day object; an empty string
is a validation failure. -/
def nonEmptyStrField (fields : List (String × Json)) (k : String) : Option String :=
  match fields.lookup k with
  | some (.str s) => if s = "" then none else some s
  | _ => none

/-- Validate one day object of the model's meal-plan JSON: the day label and
non-empty breakfast, lunch, dinner and snacks strings are all required. -/
def dayOfJson : Json → Option DayMeal
  | .obj fields =>
    match fields.lookup "day", nonEmptyStrField fields "breakfast",
          nonEmptyStrField fields "lunch", nonEmptyStrField fields "dinner",
          nonEmptyStrField fields "snacks" with
    | some (.str day), some b, some l, some d, some s => some ⟨day, b, l, d, s⟩
    | _, _, _, _, _ => none
  | _ => none

/-- Modelled from the spec: the MealPlan schema check of `safe_json_parse` in
`backend/main.py` is not under src/. The response must be an object whose
meal_plan field is an array of valid day objects, of length exactly the
requested number of days. -/
def validateMealPlan (days : Nat) (j : Json) : Option (List DayMeal) :=
  match getField j "meal_plan" with
  | some (.arr items) =>
    match mapOption dayOfJson items with
    | some plan => if plan.length = days then some plan else none
    | none => none
  | _ => none

/-- Errors surfaced by the meal-plan orchestration. -/
inductive PlanError where
  | invalidInput
  | aiResponseInvalid (lastRaw : Option (Option Json))

/-- Modelled from the spec: `backend/main.py`'s meal-plan prompt template is
not under src/. Deterministic in the calorie target and day count. -/
def buildMealPlanPrompt (cal : ℚ) (days : Nat) : String :=
  "Create a meal plan for " ++ toString days ++ " days at about " ++ toString cal
    ++ " calories per day. Respond with a single JSON object with key meal_plan and no surrounding prose."

/-- Modelled from the spec: the `POST /mealplan` orchestration of
`backend/main.py` is not under src/. Validates the day count and health data,
estimates calories, builds the prompt, and runs the invoke/parse/validate
retry loop; `invoke prompt i` stands for the raw output (already stripped to
an optional JSON value) of model attempt `i`. Failures surface as tagged
errors and never as a partial plan. -/
def ProduceMealPlan (hF hI w : ℚ) (act : String) (days : Nat)
    (invoke : String → Nat → Option Json) : Except PlanError (List DayMeal) :=
  if days < 1 ∨ 14 < days then .error .invalidInput
  else
    match calculate_calories_needed hF hI w act with
    | .error _ => .error .invalidInput
    | .ok cal =>
      let prompt := buildMealPlanPrompt cal days
      match safe_json_parse (fun i => invoke prompt i)
          (fun r => r.bind (validateMealPlan days)) with
      | (.ok plan, _) => .ok plan
      | (.aiResponseInvalid lastRaw, _) => .error (.aiResponseInvalid lastRaw)

/-- Trim ASCII whitespace from both ends and lower-case, over the character
list; models Python `.strip().lower()` applied to an item name. -/
def normName (s : String) : String :=
  String.mk ((((s.data.dropWhile Char.isWhitespace).reverse.dropWhile
    Char.isWhitespace).reverse).map Char.toLower)

/-- Two grocery entries denote the same grocery: trimmed, case-folded item
names match within the same category. -/
def sameKey (a b : GroceryItem) : Bool :=
  normName a.item == normName b.item && a.category == b.category

/-- Keep the first non-null value of an optional field, ties broken by input
order. -/
def firstSome (x y : Option String) : Option String :=
  match x with
  | some v => some v
  | none => y

/-- Modelled from the spec: the grocery consolidation of `POST /grocery-list`
in `backend/main.py` is not under src/. Merge a duplicate entry into the one
already kept: the kept entry's name, quantity and category stand, and each
optional field resolves to the first non-null value in input order. -/
def mergeItems (a b : GroceryItem) : GroceryItem :=
  { a with
    link := firstSome a.link b.link
    protein := firstSome a.protein b.protein
    carbs := firstSome a.carbs b.carbs
    fats := firstSome a.fats b.fats
    cals := firstSome a.cals b.cals }

/-- Insert one entry into the consolidated accumulator: merge into the first
entry with the same (item, category) key, else append at the end. -/
def insertItem (acc : List GroceryItem) (it : GroceryItem) : List GroceryItem :=
  match acc with
  | [] => [it]
  | a :: rest => if sameKey a it then mergeItems a it :: rest else a :: insertItem rest it

/-- Modelled from the spec: the grocery consolidation of `POST /grocery-list`
in `backend/main.py` is not under src/. Deduplicate a grocery list by the
(item, category) key, preserving first-occurrence order. -/
def consolidate (l : List GroceryItem) : List GroceryItem :=
  l.foldl insertItem []

/-- No two entries of the list share an (item, category) key. -/
def noDupKeys : List GroceryItem → Bool
  | [] => true
  | a :: rest => rest.all (fun b => !(sameKey a b)) && noDupKeys rest

/-- The raw health-form input: numbers as the browser delivers them (possibly
fractional), the activity level as a string. -/
structure HealthFormInput where
  heightFeet : ℚ
  heightInches : ℚ
  weight : ℚ
  activityLevel : String
deriving DecidableEq, Repr

/-- The activity-level strings the zod enum accepts. -/
def validActivityLevel (s : String) : Bool :=
  s == "sedentary" || s == "lightly_active" || s == "moderately_active"
    || s == "very_active" || s == "extra_active"

/-- The `healthDataSchema` zod object of
`src/frontend/components/HealthForm.tsx`: heightFeet in [1, 8], heightInches
in [0, 11], weight in [50, 1000], activityLevel one of the five enum
values. -/
def healthDataSchema (p : HealthFormInput) : Bool :=
  decide (1 ≤ p.heightFeet) && decide (p.heightFeet ≤ 8)
    && decide (0 ≤ p.heightInches) && decide (p.heightInches ≤ 11)
    && decide (50 ≤ p.weight) && decide (p.weight ≤ 1000)
    && validActivityLevel p.activityLevel

/-- The acceptance predicate the specification's HealthProfile data model
states: integer heightFeet ≥ 0, integer heightInches in [0, 11], weight > 0,
activityLevel in the enum. Written from the spec's words, to compare with
`healthDataSchema`. -/
def specProfileValid (p : HealthFormInput) : Bool :=
  (p.heightFeet.den == 1) && decide (0 ≤ p.heightFeet)
    && (p.heightInches.den == 1) && decide (0 ≤ p.heightInches)
    && decide (p.heightInches ≤ 11)
    && decide (0 < p.weight) && validActivityLevel p.activityLevel

/-- The `groupedList` reduce of `src/frontend/components/GroceryList.tsx`:
push each item onto the bucket of its category, creating the bucket at the
end on first sight (JavaScript object insertion order). -/
def pushToCategory : List (String × List GroceryItem) → String → GroceryItem →
    List (String × List GroceryItem)
  | [], c, it => [(c, [it])]
  | (k, its) :: rest, c, it =>
    if k = c then (k, its ++ [it]) :: rest
    else (k, its) :: pushToCategory rest c it

/-- The grouped grocery list of `src/frontend/components/GroceryList.tsx`:
fold of `pushToCategory` over the input list. -/
def groupedList (l : List GroceryItem) : List (String × List GroceryItem) :=
  l.foldl (fun acc it => pushToCategory acc it.category it) []

/-- The items grouped under one category key (empty when the key is absent). -/
def groupItems (acc : List (String × List GroceryItem)) (c : String) : List GroceryItem :=
  match acc.lookup c with
  | some its => its
  | none => []

/-- The shape of the meal-plan payload the frontend stores
(`MealPlanData.meal_plan`). -/
abbrev MealPlanData := List DayMeal

/-- The zustand store state of `src/store/useAppStore.ts`. -/
structure AppState where
  mealPlan : Option MealPlanData
  groceryList : Option (List GroceryItem)
  sessionId : Option String
  loading : Bool
  error : Option String
deriving DecidableEq, Repr

/-- An HTTP request the store issues to the backend. -/
inductive Request where
  | post (path : String)
  | httpDelete (path : String)
deriving DecidableEq, Repr

/-- What an awaited axios call came back as: a 200 with data, a non-200
response, or a thrown error carrying the message the handler computes. -/
inductive HttpOutcome (α : Type) where
  | ok (data : α)
  | badStatus (statusText : String)
  | exn (message : String)

/-- `generateMealPlan` of `src/store/useAppStore.ts`: first set loading and
clear error, mealPlan, groceryList and sessionId; then POST /mealplan; on 200
store the plan, on a non-200 or thrown error store an error message; finally
clear loading. The parameter `o` is the outcome of the awaited POST. -/
def generateMealPlan (s : AppState) (o : HttpOutcome MealPlanData) :
    AppState × List Request :=
  let s1 : AppState :=
    { s with loading := true, error := none, mealPlan := none,
             groceryList := none, sessionId := none }
  let s2 : AppState :=
    match o with
    | .ok data => { s1 with mealPlan := some data }
    | .badStatus t => { s1 with error := some ("Failed to generate meal plan: " ++ t) }
    | .exn m => { s1 with error := some m }
  ({ s2 with loading := false }, [.post "/mealplan"])

/-- `generateGroceryList` of `src/store/useAppStore.ts`: bail out with an
error when no meal plan is held; otherwise POST /grocery-list and on 200
store the returned grocery list and session id. -/
def generateGroceryList (s : AppState)
    (o : HttpOutcome (String × List GroceryItem)) : AppState × List Request :=
  match s.mealPlan with
  | none => ({ s with error := some "No meal plan available to generate grocery list." }, [])
  | some _ =>
    let s1 : AppState := { s with loading := true, error := none }
    let s2 : AppState :=
      match o with
      | .ok (sid, gl) => { s1 with groceryList := some gl, sessionId := some sid }
      | .badStatus t => { s1 with error := some ("Failed to generate grocery list: " ++ t) }
      | .exn m => { s1 with error := some m }
    ({ s2 with loading := false }, [.post "/grocery-list"])

/-- `clearGroceryList` of `src/store/useAppStore.ts`: when a session id is
held, DELETE its grocery list, recording an error message if that fails; in
every case null out groceryList and sessionId afterwards. -/
def clearGroceryList (s : AppState) (o : Except String Unit) :
    AppState × List Request :=
  match s.sessionId with
  | none => ({ s with groceryList := none, sessionId := none }, [])
  | some sid =>
    let s1 : AppState :=
      match o with
      | .ok _ => s
      | .error m => { s with error := some m }
    ({ s1 with groceryList := none, sessionId := none },
     [.httpDelete ("/grocery-list/" ++ sid)])

/-- `clearAll` of `src/store/useAppStore.ts`. -/
def clearAll (s : AppState) : AppState × List Request :=
  ({ s with mealPlan := none, groceryList := none, sessionId := none, error := none }, [])

/-- A concrete grocery list used to exercise the session store. -/
def glW : List GroceryItem :=
  [⟨"Milk", "1 gal", "Dairy", none, some "8g", none, none, some "150"⟩,
   ⟨"Broccoli", "1 cup", "Produce", some "http://x", none, none, none, none⟩]

/-- A concrete day object of the model's meal-plan JSON. -/
def dayJson (n b l d s : String) : Json :=
  .obj [("day", .str n), ("breakfast", .str b), ("lunch", .str l),
        ("dinner", .str d), ("snacks", .str s)]

/-- A concrete well-formed three-day meal-plan response. -/
def plan3Json : Json :=
  .obj [("meal_plan", .arr
    [dayJson "Day 1" "Oats" "Salad" "Pasta" "Nuts",
     dayJson "Day 2" "Eggs" "Soup" "Rice" "Fruit",
     dayJson "Day 3" "Toast" "Wrap" "Fish" "Yogurt"])]

/-- The parsed form of `plan3Json`. -/
def plan3 : List DayMeal :=
  [⟨"Day 1", "Oats", "Salad", "Pasta", "Nuts"⟩,
   ⟨"Day 2", "Eggs", "Soup", "Rice", "Fruit"⟩,
   ⟨"Day 3", "Toast", "Wrap", "Fish", "Yogurt"⟩]

theorem jsonOpt_optJson (o : Option String) : jsonOpt (optJson o) = some o := by
  cases o <;> rfl

theorem itemOfJson_itemToJson (it : GroceryItem) :
    itemOfJson (itemToJson it) = some it := by
  obtain ⟨a, b, c, l, p, cb, f, cal⟩ := it
  cases l <;> cases p <;> cases cb <;> cases f <;> cases cal <;> rfl

theorem mapOption_map_roundtrip (f : β → α) (g : α → Option β)
    (hfg : ∀ x, g (f x) = some x) (l : List β) : mapOption g (l.map f) = some l := by
  induction l with
  | nil => rfl
  | cons a l ih => simp [mapOption, hfg, ih]

theorem lookup_append_self (db : Db) (sid : String) (v : Json)
    (h : db.lookup sid = none) : (db ++ [(sid, v)]).lookup sid = some v := by
  induction db with
  | nil => simp [List.lookup]
  | cons kv rest ih =>
    obtain ⟨k, w⟩ := kv
    rw [List.cons_append]
    simp only [List.lookup] at h ⊢
    cases hk : (sid == k) with
    | true => rw [hk] at h; cases h
    | false => rw [hk] at h; exact ih h

theorem lookup_filter_self (db : Db) (sid : String) :
    (db.filter (fun kv => !(kv.1 == sid))).lookup sid = none := by
  induction db with
  | nil => rfl
  | cons kv rest ih =>
    obtain ⟨k, v⟩ := kv
    by_cases hk : k = sid
    · subst hk
      simp [List.filter_cons, ih]
    · have h1 : (k == sid) = false := beq_eq_false_iff_ne.mpr hk
      have h2 : (sid == k) = false := beq_eq_false_iff_ne.mpr (Ne.symm hk)
      simp [List.filter_cons, h1, List.lookup, h2, ih]

/-- C1: safe_json_parse makes at most 3 total attempts including the first;
text that validates on the first attempt is returned with a single model
invocation (zero retries); text malformed on every attempt fails with
AIResponseInvalid carrying the last raw text, after exactly 3 invocations. -/
theorem safe_json_parse_retry_budget {ρ α : Type} (invoke : Nat → ρ)
    (parse : ρ → Option α) :
    (∀ v, parse (invoke 0) = some v → safe_json_parse invoke parse = (.ok v, 1)) ∧
    ((∀ i, i < 3 → parse (invoke i) = none) →
      safe_json_parse invoke parse = (.aiResponseInvalid (some (invoke 2)), 3)) ∧
    (safe_json_parse invoke parse).2 ≤ 3 := by
  refine ⟨fun v h => by simp [safe_json_parse, runAttempts, h],
          fun h => by
            simp [safe_json_parse, runAttempts, h 0 (by norm_num),
                  h 1 (by norm_num), h 2 (by norm_num)], ?_⟩
  simp only [safe_json_parse]
  cases h0 : parse (invoke 0) with
  | some v => simp [runAttempts, h0]
  | none =>
    cases h1 : parse (invoke 1) with
    | some v => simp [runAttempts, h0, h1]
    | none =>
      cases h2 : parse (invoke 2) with
      | some v => simp [runAttempts, h0, h1, h2]
      | none => simp [runAttempts, h0, h1, h2]

/-- Witness for C1 at a concrete invoker and parser. -/
theorem safe_json_parse_retry_budget_witness :
    safe_json_parse (fun _ => "good") (fun s => if s = "good" then some 7 else none)
      = (.ok 7, 1) ∧
    safe_json_parse (fun _ => "bad") (fun s => if s = "good" then some 7 else none)
      = (.aiResponseInvalid (some "bad"), 3) :=
  ⟨(safe_json_parse_retry_budget (fun _ => "good")
      (fun s => if s = "good" then some 7 else none)).1 7 rfl,
   (safe_json_parse_retry_budget (fun _ => "bad")
      (fun s => if s = "good" then some 7 else none)).2.1 (fun _ _ => rfl)⟩

/-- C2: the session store round-trips exactly: storing a grocery list under a
fresh session id and reading it back yields a deep-equal value, ordering and
optional-field absence preserved through serialization. -/
theorem session_store_roundtrip (db : Db) (sid : String) (gl : List GroceryItem)
    (hfresh : db.lookup sid = none) :
    get_grocery_list (insert_grocery_list db sid gl) sid = .ok gl := by
  unfold get_grocery_list insert_grocery_list
  rw [lookup_append_self db sid _ hfresh]
  simp [listOfJson, listToJson, mapOption_map_roundtrip _ _ itemOfJson_itemToJson]

/-- Witness for C2 on an empty store and a concrete two-item list. -/
theorem session_store_roundtrip_witness :
    get_grocery_list (insert_grocery_list [] "s1" glW) "s1" = .ok glW :=
  session_store_roundtrip [] "s1" glW rfl

/-- C3: after a successful delete, a get of the same session id fails with
NotFound, and a second delete also reports NotFound rather than silently
succeeding. -/
theorem session_store_delete_semantics (db db' : Db) (sid : String)
    (h : delete_grocery_list db sid = .ok db') :
    get_grocery_list db' sid = .error .notFound ∧
    delete_grocery_list db' sid = .error .notFound := by
  unfold delete_grocery_list at h
  by_cases hl : (db.lookup sid).isSome
  · rw [if_pos hl] at h
    injection h with h
    subst h
    constructor
    · unfold get_grocery_list
      rw [lookup_filter_self]
    · unfold delete_grocery_list
      rw [lookup_filter_self]
      rfl
  · rw [if_neg hl] at h
    cases h

/-- Witness for C3 on a store holding exactly one session. -/
theorem session_store_delete_semantics_witness :
    get_grocery_list [] "s1" = .error .notFound ∧
    delete_grocery_list [] "s1" = .error .notFound :=
  session_store_delete_semantics (insert_grocery_list [] "s1" glW) [] "s1" rfl

theorem sameKey_mergeItems_right (x a b : GroceryItem) :
    sameKey x (mergeItems a b) = sameKey x a := rfl

theorem sameKey_mergeItems_left (x a b : GroceryItem) :
    sameKey (mergeItems a b) x = sameKey a x := rfl

theorem insertItem_no_match (acc : List GroceryItem) (it : GroceryItem)
    (h : ∀ a ∈ acc, sameKey a it = false) : insertItem acc it = acc ++ [it] := by
  induction acc with
  | nil => rfl
  | cons a rest ih =>
    have ha : sameKey a it = false := h a (by simp)
    simp [insertItem, ha, ih (fun x hx => h x (by simp [hx]))]

theorem foldl_insertItem_fresh (l : List GroceryItem) :
    ∀ acc : List GroceryItem, noDupKeys l = true →
    (∀ a ∈ acc, ∀ b ∈ l, sameKey a b = false) →
    l.foldl insertItem acc = acc ++ l := by
  induction l with
  | nil => intro acc _ _; simp
  | cons b rest ih =>
    intro acc hl hacc
    simp only [noDupKeys, Bool.and_eq_true, List.all_eq_true] at hl
    obtain ⟨hball, hrest⟩ := hl
    rw [List.foldl_cons, insertItem_no_match acc b (fun a ha => hacc a ha b (by simp))]
    rw [ih (acc ++ [b]) hrest ?_]
    · simp
    · intro a ha c hc
      rcases List.mem_append.mp ha with h | h
      · exact hacc a h c (by simp [hc])
      · simp only [List.mem_singleton] at h
        subst h
        simpa using hball c hc

theorem consolidate_noDup (l : List GroceryItem) (h : noDupKeys l = true) :
    consolidate l = l := by
  unfold consolidate
  rw [foldl_insertItem_fresh l [] h (by simp)]
  simp

theorem insertItem_mem (rest : List GroceryItem) (it b : GroceryItem)
    (hb : b ∈ insertItem rest it) :
    b = it ∨ ∃ c ∈ rest, ∀ x, sameKey x b = sameKey x c := by
  induction rest with
  | nil =>
    simp [insertItem] at hb
    left; exact hb
  | cons c rest ih =>
    simp only [insertItem] at hb
    cases hck : sameKey c it with
    | true =>
      simp only [hck, if_true] at hb
      rcases List.mem_cons.mp hb with h | h
      · right; exact ⟨c, by simp, fun x => by rw [h]; exact sameKey_mergeItems_right x c it⟩
      · right; exact ⟨b, by simp [h], fun x => rfl⟩
    | false =>
      simp only [hck, Bool.false_eq_true, if_false] at hb
      rcases List.mem_cons.mp hb with h | h
      · right; exact ⟨c, by simp, fun x => by rw [h]⟩
      · rcases ih h with h' | ⟨d, hd, he⟩
        · left; exact h'
        · right; exact ⟨d, by simp [hd], he⟩

theorem noDupKeys_insertItem (acc : List GroceryItem) (it : GroceryItem)
    (h : noDupKeys acc = true) : noDupKeys (insertItem acc it) = true := by
  induction acc with
  | nil => rfl
  | cons a rest ih =>
    simp only [noDupKeys, Bool.and_eq_true, List.all_eq_true] at h
    obtain ⟨hall, hrest⟩ := h
    cases hk : sameKey a it with
    | true =>
      simp only [insertItem, hk, if_true, noDupKeys, Bool.and_eq_true, List.all_eq_true]
      constructor
      · intro b hb
        have := hall b hb
        simpa [sameKey_mergeItems_left] using this
      · exact hrest
    | false =>
      simp only [insertItem, hk, Bool.false_eq_true, if_false, noDupKeys,
                 Bool.and_eq_true, List.all_eq_true]
      refine ⟨?_, ih hrest⟩
      intro b hb
      rcases insertItem_mem rest it b hb with h | ⟨c, hc, he⟩
      · subst h; simp [hk]
      · have := hall c hc
        rw [he a]
        simpa using this

theorem noDupKeys_consolidate (l : List GroceryItem) :
    noDupKeys (consolidate l) = true := by
  unfold consolidate
  have : ∀ acc : List GroceryItem, noDupKeys acc = true →
      noDupKeys (l.foldl insertItem acc) = true := by
    induction l with
    | nil => intro acc h; exact h
    | cons b rest ih => intro acc h; exact ih _ (noDupKeys_insertItem acc b h)
  exact this [] rfl

/-- C4: grocery consolidation is idempotent and insensitive to case and
surrounding whitespace of item names: a list with no duplicate (item, category) keys is returned
unchanged in order; the consolidated output never holds two entries with the
same key; consolidating is idempotent; and two entries whose trimmed,
case-folded names match in the same category collapse to the single merged
entry that keeps the first non-null value of each optional field in input
order. -/
theorem consolidation_spec (l m : List GroceryItem) (a b : GroceryItem)
    (hnd : noDupKeys l = true) (hab : sameKey a b = true) :
    consolidate l = l ∧
    noDupKeys (consolidate m) = true ∧
    consolidate (consolidate m) = consolidate m ∧
    consolidate [a, b] = [mergeItems a b] := by
  refine ⟨consolidate_noDup l hnd, noDupKeys_consolidate m,
          consolidate_noDup _ (noDupKeys_consolidate m), ?_⟩
  simp [consolidate, insertItem, hab]

/-- Witness for C4: a duplicate-free list, an arbitrary list, and the
"Milk" / "milk " pair in category Dairy. -/
theorem consolidation_spec_witness :
    consolidate glW = glW ∧
    noDupKeys (consolidate glW) = true ∧
    consolidate (consolidate glW) = consolidate glW ∧
    consolidate [⟨"Milk", "1 gal", "Dairy", none, none, some "12g", none, none⟩,
                 ⟨"milk ", "2 gal", "Dairy", some "http://m", none, some "13g", none, none⟩]
      = [mergeItems ⟨"Milk", "1 gal", "Dairy", none, none, some "12g", none, none⟩
                    ⟨"milk ", "2 gal", "Dairy", some "http://m", none, some "13g", none, none⟩] :=
  consolidation_spec glW glW
    ⟨"Milk", "1 gal", "Dairy", none, none, some "12g", none, none⟩
    ⟨"milk ", "2 gal", "Dairy", some "http://m", none, some "13g", none, none⟩
    (by decide) (by decide)

theorem runAttempts_ok {ρ α : Type} (invoke : Nat → ρ) (parse : ρ → Option α) :
    ∀ (last : Option ρ) (i budget : Nat) (v : α),
    (runAttempts invoke parse last i budget).1 = .ok v →
    ∃ j, parse (invoke j) = some v := by
  intro last i budget
  induction budget generalizing last i with
  | zero => intro v h; simp [runAttempts] at h
  | succ b ih =>
    intro v h
    simp only [runAttempts] at h
    cases hp : parse (invoke i) with
    | some w =>
      rw [hp] at h
      simp at h
      exact ⟨i, by rw [hp, h]⟩
    | none =>
      rw [hp] at h
      simp at h
      exact ih _ _ v h

theorem safe_json_parse_ok {ρ α : Type} (invoke : Nat → ρ) (parse : ρ → Option α)
    (v : α) (h : (safe_json_parse invoke parse).1 = .ok v) :
    ∃ j, parse (invoke j) = some v :=
  runAttempts_ok invoke parse none 0 3 v h

theorem nonEmptyStrField_ne (fields : List (String × Json)) (k s : String)
    (h : nonEmptyStrField fields k = some s) : s ≠ "" := by
  unfold nonEmptyStrField at h
  split at h
  · split at h
    · cases h
    · injection h with h
      subst h
      assumption
  · cases h

theorem dayOfJson_fields (j : Json) (d : DayMeal) (h : dayOfJson j = some d) :
    d.breakfast ≠ "" ∧ d.lunch ≠ "" ∧ d.dinner ≠ "" ∧ d.snacks ≠ "" := by
  cases j with
  | obj fields =>
    simp only [dayOfJson] at h
    split at h
    · injection h with h
      subst h
      exact ⟨nonEmptyStrField_ne fields _ _ (by assumption),
             nonEmptyStrField_ne fields _ _ (by assumption),
             nonEmptyStrField_ne fields _ _ (by assumption),
             nonEmptyStrField_ne fields _ _ (by assumption)⟩
    · cases h
  | null => cases h
  | str s => cases h
  | arr items => cases h

theorem mapOption_mem {α β : Type} (f : α → Option β) (l : List α) (bs : List β)
    (h : mapOption f l = some bs) : ∀ b ∈ bs, ∃ a ∈ l, f a = some b := by
  induction l generalizing bs with
  | nil =>
    simp only [mapOption] at h
    injection h with h
    subst h
    simp
  | cons a l ih =>
    simp only [mapOption] at h
    cases hfa : f a with
    | none => rw [hfa] at h; cases h
    | some b0 =>
      rw [hfa] at h
      cases hml : mapOption f l with
      | none => rw [hml] at h; cases h
      | some bs0 =>
        rw [hml] at h
        injection h with h
        subst h
        intro b hb
        rcases List.mem_cons.mp hb with hbb | hbb
        · exact ⟨a, by simp, by rw [hfa, hbb]⟩
        · rcases ih bs0 hml b hbb with ⟨x, hx, hfx⟩
          exact ⟨x, by simp [hx], hfx⟩

theorem validateMealPlan_ok (days : Nat) (j : Json) (plan : List DayMeal)
    (h : validateMealPlan days j = some plan) :
    plan.length = days ∧ ∀ d ∈ plan,
      d.breakfast ≠ "" ∧ d.lunch ≠ "" ∧ d.dinner ≠ "" ∧ d.snacks ≠ "" := by
  unfold validateMealPlan at h
  split at h
  · split at h
    · split at h
      · injection h with h
        subst h
        refine ⟨by assumption, ?_⟩
        intro d hd
        rcases mapOption_mem dayOfJson _ _ (by assumption) d hd with ⟨a, _, hda⟩
        exact dayOfJson_fields a d hda
      · cases h
    · cases h
  · cases h

/-- C5: whenever ProduceMealPlan succeeds for a valid profile and a requested
day count in 1–14, the returned plan has exactly that many day entries, each
with non-empty breakfast, lunch, dinner and snacks; failures surface as
errors, never as a partial plan. -/
theorem produce_meal_plan_shape (hF hI w : ℚ) (act : String) (days : Nat)
    (invoke : String → Nat → Option Json) (plan : List DayMeal)
    (hd1 : 1 ≤ days) (hd2 : days ≤ 14) (hhF : 0 ≤ hF) (hhI : 0 ≤ hI) (hw : 0 < w)
    (h : ProduceMealPlan hF hI w act days invoke = .ok plan) :
    plan.length = days ∧ ∀ d ∈ plan,
      d.breakfast ≠ "" ∧ d.lunch ≠ "" ∧ d.dinner ≠ "" ∧ d.snacks ≠ "" := by
  unfold ProduceMealPlan at h
  rw [if_neg (by omega)] at h
  cases hcal : calculate_calories_needed hF hI w act with
  | error e => rw [hcal] at h; cases h
  | ok cal =>
    rw [hcal] at h
    dsimp only at h
    cases hsp : safe_json_parse (fun i => invoke (buildMealPlanPrompt cal days) i)
        (fun r => r.bind (validateMealPlan days)) with
    | mk res n =>
      rw [hsp] at h
      cases res with
      | aiResponseInvalid lr => cases h
      | ok plan0 =>
        injection h with h
        subst h
        have hex := safe_json_parse_ok _ _ plan0 (by rw [hsp])
        rcases hex with ⟨j, hj⟩
        cases hji : invoke (buildMealPlanPrompt cal days) j with
        | none => rw [hji] at hj; cases hj
        | some jv =>
          rw [hji] at hj
          exact validateMealPlan_ok days jv plan0 hj

/-- Witness for C5: a model that answers the fixed three-day plan on the
first attempt, for the 5ft10in, 150 lbs, sedentary profile. -/
theorem produce_meal_plan_shape_witness :
    plan3.length = 3 ∧ ∀ d ∈ plan3,
      d.breakfast ≠ "" ∧ d.lunch ≠ "" ∧ d.dinner ≠ "" ∧ d.snacks ≠ "" :=
  produce_meal_plan_shape 5 10 150 "sedentary" 3 (fun _ _ => some plan3Json) plan3
    (by norm_num) (by norm_num) (by norm_num) (by norm_num) (by norm_num) rfl

theorem bmr_pos (hF hI w : ℚ) (hhF : 0 ≤ hF) (hhI : 0 ≤ hI) (hw : 0 < w) :
    0 < bmr hF hI w := by
  unfold bmr weightKg heightCm kgPerLb cmPerIn
  nlinarith

/-- C6: the calorie estimate is monotone in weight with height and activity
level fixed, and for a fixed valid profile the activity coefficients order
the estimates strictly: sedentary < lightly_active < moderately_active <
very_active < extra_active. -/
theorem calorie_estimator_monotone (hF hI w1 w2 w : ℚ) (act : String) (r1 r2 : ℚ)
    (hw1 : 0 < w1) (h12 : w1 < w2)
    (h1 : calculate_calories_needed hF hI w1 act = .ok r1)
    (h2 : calculate_calories_needed hF hI w2 act = .ok r2)
    (hhF : 0 ≤ hF) (hhI : 0 ≤ hI) (hw : 0 < w) :
    r1 ≤ r2 ∧
    estimateCore hF hI w .sedentary < estimateCore hF hI w .lightly_active ∧
    estimateCore hF hI w .lightly_active < estimateCore hF hI w .moderately_active ∧
    estimateCore hF hI w .moderately_active < estimateCore hF hI w .very_active ∧
    estimateCore hF hI w .very_active < estimateCore hF hI w .extra_active := by
  have hb := bmr_pos hF hI w hhF hhI hw
  unfold calculate_calories_needed at h1 h2
  rw [if_neg (not_le.mpr hw1)] at h1
  rw [if_neg (not_le.mpr (lt_trans hw1 h12))] at h2
  cases hact : parseActivity act with
  | none => rw [hact] at h1; cases h1
  | some lv =>
    rw [hact] at h1 h2
    injection h1 with h1
    injection h2 with h2
    subst h1
    subst h2
    refine ⟨?_, ?_, ?_, ?_, ?_⟩
    · unfold estimateCore bmr weightKg heightCm kgPerLb cmPerIn
      cases lv <;> simp only [activityMultiplier] <;> nlinarith
    all_goals
      unfold estimateCore activityMultiplier
      nlinarith [hb]

/-- Witness for C6 at the 5ft10in profile, weights 150 and 160 lbs. -/
theorem calorie_estimator_monotone_witness :
    estimateCore 5 10 150 .sedentary ≤ estimateCore 5 10 160 .sedentary ∧
    estimateCore 5 10 150 .sedentary < estimateCore 5 10 150 .lightly_active ∧
    estimateCore 5 10 150 .lightly_active < estimateCore 5 10 150 .moderately_active ∧
    estimateCore 5 10 150 .moderately_active < estimateCore 5 10 150 .very_active ∧
    estimateCore 5 10 150 .very_active < estimateCore 5 10 150 .extra_active :=
  calorie_estimator_monotone 5 10 150 160 150 "sedentary"
    (estimateCore 5 10 150 .sedentary) (estimateCore 5 10 160 .sedentary)
    (by norm_num) (by norm_num) rfl rfl (by norm_num) (by norm_num) (by norm_num)

/-- C7: the calorie estimator rejects non-positive weight and activity-level
strings outside the enum with InvalidInput, and on every valid input it
totally returns the pure estimate. -/
theorem calorie_estimator_rejects (hF hI w : ℚ) (act : String) :
    (w ≤ 0 → calculate_calories_needed hF hI w act = .error .invalidInput) ∧
    (parseActivity act = none →
      calculate_calories_needed hF hI w act = .error .invalidInput) ∧
    (0 < w → ∀ lv, parseActivity act = some lv →
      calculate_calories_needed hF hI w act = .ok (estimateCore hF hI w lv)) := by
  refine ⟨fun h => by simp [calculate_calories_needed, h], fun h => ?_, fun hw lv h => ?_⟩
  · unfold calculate_calories_needed
    rw [h]
    split
    · rfl
    · rfl
  · unfold calculate_calories_needed
    rw [if_neg (not_le.mpr hw), h]

/-- Witness for C7: zero weight rejected, an out-of-enum activity string
rejected, and the sedentary 150 lbs profile accepted. -/
theorem calorie_estimator_rejects_witness :
    calculate_calories_needed 5 10 0 "sedentary" = .error .invalidInput ∧
    calculate_calories_needed 5 10 150 "couch_potato" = .error .invalidInput ∧
    calculate_calories_needed 5 10 150 "sedentary"
      = .ok (estimateCore 5 10 150 .sedentary) :=
  ⟨(calorie_estimator_rejects 5 10 0 "sedentary").1 (by norm_num),
   (calorie_estimator_rejects 5 10 150 "couch_potato").2.1 rfl,
   (calorie_estimator_rejects 5 10 150 "sedentary").2.2 (by norm_num) .sedentary rfl⟩

/-- C8 counterexample: the profile (heightFeet 0, heightInches 0, weight 150,
sedentary) satisfies every constraint the claim lists — integer heightFeet
≥ 0, integer heightInches in [0, 11], weight > 0, enum activity level — yet
`healthDataSchema` rejects it (its heightFeet minimum is 1, not 0), so the
claimed acceptance set is not the schema's. -/
theorem healthDataSchema_claim_false :
    specProfileValid ⟨0, 0, 150, "sedentary"⟩ = true ∧
    healthDataSchema ⟨0, 0, 150, "sedentary"⟩ = false := by
  constructor <;> decide

/-- C8 amended: `healthDataSchema` accepts exactly the inputs with heightFeet
in [1, 8], heightInches in [0, 11], weight in [50, 1000] (numbers, not
necessarily integers), and activityLevel one of the five enum strings. -/
theorem healthDataSchema_characterization (p : HealthFormInput) :
    healthDataSchema p = true ↔
      (1 ≤ p.heightFeet ∧ p.heightFeet ≤ 8 ∧
       0 ≤ p.heightInches ∧ p.heightInches ≤ 11 ∧
       50 ≤ p.weight ∧ p.weight ≤ 1000 ∧
       (p.activityLevel = "sedentary" ∨ p.activityLevel = "lightly_active" ∨
        p.activityLevel = "moderately_active" ∨ p.activityLevel = "very_active" ∨
        p.activityLevel = "extra_active")) := by
  simp [healthDataSchema, validActivityLevel, Bool.and_eq_true, Bool.or_eq_true,
        decide_eq_true_eq, and_assoc, or_assoc]

theorem groupItems_cons (k : String) (its : List GroceryItem)
    (rest : List (String × List GroceryItem)) (c : String) :
    groupItems ((k, its) :: rest) c = if c = k then its else groupItems rest c := by
  by_cases h : c = k
  · have hb : (c == k) = true := by simp [h]
    simp [groupItems, List.lookup, hb, h]
  · have hb : (c == k) = false := beq_eq_false_iff_ne.mpr h
    simp [groupItems, List.lookup, hb, h]

theorem groupItems_push (acc : List (String × List GroceryItem)) (c c' : String)
    (it : GroceryItem) :
    groupItems (pushToCategory acc c' it) c =
      if c = c' then groupItems acc c ++ [it] else groupItems acc c := by
  induction acc with
  | nil =>
    by_cases h : c = c'
    · have hb : (c == c') = true := by simp [h]
      simp [pushToCategory, groupItems, List.lookup, hb, h]
    · have hb : (c == c') = false := beq_eq_false_iff_ne.mpr h
      simp [pushToCategory, groupItems, List.lookup, hb, h]
  | cons kv rest ih =>
    obtain ⟨k, its⟩ := kv
    simp only [pushToCategory]
    by_cases hk : k = c'
    · subst hk
      rw [if_pos rfl, groupItems_cons, groupItems_cons]
      by_cases hc : c = k
      · simp [hc]
      · simp [hc]
    · rw [if_neg hk, groupItems_cons, groupItems_cons]
      by_cases hc : c = k
      · have hcc' : ¬c = c' := fun h => hk (hc.symm.trans h)
        simp [hc, hcc', hk]
      · simp [hc, ih]

theorem keys_push (acc : List (String × List GroceryItem)) (c : String)
    (it : GroceryItem) :
    (pushToCategory acc c it).map Prod.fst =
      if c ∈ acc.map Prod.fst then acc.map Prod.fst else acc.map Prod.fst ++ [c] := by
  induction acc with
  | nil => simp [pushToCategory]
  | cons kv rest ih =>
    obtain ⟨k, its⟩ := kv
    simp only [pushToCategory]
    by_cases hk : k = c
    · subst hk
      simp [List.mem_cons]
    · have hck : ¬c = k := fun h => hk h.symm
      rw [if_neg hk]
      simp only [List.map_cons, ih, List.mem_cons]
      by_cases hm : c ∈ rest.map Prod.fst <;> simp [hm, hck]

theorem keys_nodup_push (acc : List (String × List GroceryItem)) (c : String)
    (it : GroceryItem) (h : (acc.map Prod.fst).Nodup) :
    ((pushToCategory acc c it).map Prod.fst).Nodup := by
  rw [keys_push]
  split
  · exact h
  · simp only [List.nodup_append, List.nodup_cons, List.nodup_nil]
    refine ⟨h, by simp, ?_⟩
    intro a ha
    simp only [List.mem_singleton]
    intro hac
    subst hac
    exact absurd ha (by assumption)

theorem groupItems_foldl (l : List GroceryItem) :
    ∀ (acc : List (String × List GroceryItem)) (c : String),
    groupItems (l.foldl (fun a it => pushToCategory a it.category it) acc) c =
      groupItems acc c ++ l.filter (fun it => it.category == c) := by
  induction l with
  | nil => intro acc c; simp
  | cons it rest ih =>
    intro acc c
    rw [List.foldl_cons, ih, groupItems_push]
    by_cases h : c = it.category
    · have hb : (it.category == c) = true := by simp [h]
      simp [h, List.filter_cons, hb]
    · have hb : (it.category == c) = false := beq_eq_false_iff_ne.mpr fun hx => h hx.symm
      simp [h, List.filter_cons, hb]

theorem keys_nodup_foldl (l : List GroceryItem) :
    ∀ acc : List (String × List GroceryItem), (acc.map Prod.fst).Nodup →
    ((l.foldl (fun a it => pushToCategory a it.category it) acc).map Prod.fst).Nodup := by
  induction l with
  | nil => intro acc h; exact h
  | cons it rest ih => intro acc h; exact ih _ (keys_nodup_push acc it.category it h)

/-- C9: the frontend grouping is a partition preserving input order: category
keys are pairwise distinct, and the bucket of every category holds exactly
the input items with that category, in input order; items of other categories
never appear in it. -/
theorem groupedList_partition (l : List GroceryItem) :
    ((groupedList l).map Prod.fst).Nodup ∧
    ∀ c, groupItems (groupedList l) c = l.filter (fun it => it.category == c) := by
  refine ⟨keys_nodup_foldl l [] (by simp), fun c => ?_⟩
  rw [groupedList, groupItems_foldl]
  rfl

/-- C10: generateMealPlan always nulls groceryList and sessionId whatever its
request's outcome and issues no DELETE for the discarded session; neither
generateGroceryList nor clearAll ever issues a DELETE; and clearGroceryList
is the operation that DELETEs the current session's grocery list, nulling
groceryList and sessionId even when that DELETE fails. -/
theorem store_session_discard_and_delete (s : AppState)
    (o₁ : HttpOutcome MealPlanData) (o₂ : HttpOutcome (String × List GroceryItem))
    (o₃ : Except String Unit) (sid : String) (hs : s.sessionId = some sid) :
    (generateMealPlan s o₁).1.groceryList = none ∧
    (generateMealPlan s o₁).1.sessionId = none ∧
    (∀ p, Request.httpDelete p ∉ (generateMealPlan s o₁).2) ∧
    (∀ p, Request.httpDelete p ∉ (generateGroceryList s o₂).2) ∧
    (∀ p, Request.httpDelete p ∉ (clearAll s).2) ∧
    (clearGroceryList s o₃).2 = [Request.httpDelete ("/grocery-list/" ++ sid)] ∧
    (clearGroceryList s o₃).1.groceryList = none ∧
    (clearGroceryList s o₃).1.sessionId = none := by
  obtain ⟨mp, gl, sid0, ld, er⟩ := s
  simp only [AppState.sessionId] at hs
  subst hs
  refine ⟨?_, ?_, ?_, ?_, ?_, ?_, ?_, ?_⟩
  · cases o₁ <;> rfl
  · cases o₁ <;> rfl
  · intro p
    cases o₁ <;> simp [generateMealPlan]
  · intro p
    cases mp <;> cases o₂ <;> simp [generateGroceryList]
  · intro p
    simp [clearAll]
  · cases o₃ <;> rfl
  · cases o₃ <;> rfl
  · cases o₃ <;> rfl

/-- Witness for C10 at a concrete state holding session "sess", with a failed
DELETE outcome. -/
theorem store_session_discard_and_delete_witness :
    (generateMealPlan ⟨some plan3, some glW, some "sess", false, none⟩ (.ok plan3)).1.sessionId
      = none ∧
    (clearGroceryList ⟨some plan3, some glW, some "sess", false, none⟩
      (.error "boom")).2 = [Request.httpDelete ("/grocery-list/" ++ "sess")] ∧
    (clearGroceryList ⟨some plan3, some glW, some "sess", false, none⟩
      (.error "boom")).1.sessionId = none := by
  have h := store_session_discard_and_delete ⟨some plan3, some glW, some "sess", false, none⟩
    (.ok plan3) (.ok ("sess2", glW)) (.error "boom") "sess" rfl
  exact ⟨h.2.1, h.2.2.2.2.2.1, h.2.2.2.2.2.2.2⟩

end MealPlanner
